import Mathlib

/-!
Verification of the memory-retrieval and effect-interpretation core of the
rag-system repository (Cloudflare Workers RPG backend).

The development shallowly embeds the relevant TypeScript functions:

* `src/workers/game.ts`: `validateAndProcessEffects`, `validateEffect`,
  `interpretEffects` (its pure parse-and-validate part), `storeMemories`
  (its pure summarisation part), and `retrieveRelevantMemories`.
* `src/workers/player.ts`: the identifier-normalisation step of its own
  `validateAndProcessEffects` (the `.map` that lowercases `data.id` and
  strips characters outside the a-z, 0-9, underscore, hyphen class).

JavaScript runtime values flowing out of `JSON.parse` are modelled by
`JsonValue`; machine numbers are modelled by `Rat` (the claims under
study concern ordering and equality of small decimal constants, where
IEEE doubles and rationals agree).  Fallible external calls (D1 query,
embedding provider, similarity index) are modelled by explicit outcome
types; a thrown JavaScript exception is an `err` outcome, a returned
malformed payload is its own constructor.
-/

set_option autoImplicit false
set_option maxRecDepth 8192

/-- A parsed JSON / JavaScript value, as produced by `JSON.parse`. -/
inductive JsonValue where
  | null : JsonValue
  | bool : Bool → JsonValue
  | num : ℚ → JsonValue
  | str : String → JsonValue
  | arr : List JsonValue → JsonValue
  | obj : List (String × JsonValue) → JsonValue

/-- Property access `v[k]`: defined on objects, `undefined` (here `none`)
on every other value.  Later duplicate keys win, as in JavaScript. -/
def getField (v : JsonValue) (k : String) : Option JsonValue :=
  match v with
  | .obj fs => fs.foldl (fun acc p => if p.1 = k then some p.2 else acc) none
  | _ => none

/-- JavaScript truthiness of a JSON value. -/
def truthy (v : JsonValue) : Bool :=
  match v with
  | .null => false
  | .bool b => b
  | .num q => decide (q ≠ 0)
  | .str s => !s.isEmpty
  | .arr _ => true
  | .obj _ => true

/-- Truthiness of `v[k]` (`undefined` is falsy). -/
def truthyField (v : JsonValue) (k : String) : Bool :=
  match getField v k with
  | some w => truthy w
  | none => false

/-- `typeof v === 'object'` together with the `!v` guard of
`validateAndProcessEffects`: arrays and objects pass, `null` and the
primitives do not. -/
def jsObjLike (v : JsonValue) : Bool :=
  match v with
  | .arr _ => true
  | .obj _ => true
  | _ => false

/-- The string content of `v[k]` when `typeof v[k] === 'string'`. -/
def jgetStr (v : JsonValue) (k : String) : Option String :=
  match getField v k with
  | some (.str s) => some s
  | _ => none

/-- `typeof v[k] === 'string'`. -/
def isStrField (v : JsonValue) (k : String) : Bool :=
  (jgetStr v k).isSome

/-- `typeof v[k] === 'number'`. -/
def isNumField (v : JsonValue) (k : String) : Bool :=
  match getField v k with
  | some (.num _) => true
  | _ => false

/-- `v.action === a` (strict equality against a string literal: true
exactly when the field holds that string). -/
def actionIs (v : JsonValue) (a : String) : Bool :=
  jgetStr v ("action") = some a

/-- `as.includes(v.action)` (strict equality inside `includes`: a
non-string action matches nothing). -/
def actionIn (v : JsonValue) (as : List String) : Bool :=
  match jgetStr v ("action") with
  | some s => as.contains s
  | none => false

/-- `ts.includes(v.type)` (strict equality inside `includes`). -/
def typeIn (v : JsonValue) (ts : List String) : Bool :=
  match jgetStr v ("type") with
  | some s => ts.contains s
  | none => false

/-- `effect.data`, defaulting to `null` (unreachable after validation,
which requires the field to be truthy). -/
def dataOf (v : JsonValue) : JsonValue :=
  (getField v ("data")).getD .null

/-- `game.ts` `validateEffect`: the per-variant switch.  The common
truthiness checks of `type`, `action`, `data` are repeated here exactly
as in the source. -/
def validateEffect (x : JsonValue) : Bool :=
  truthyField x ("type") && truthyField x ("action") && truthyField x ("data") &&
  (if jgetStr x ("type") = some ("item") then
     actionIn x [("add"), ("remove"), ("use")] &&
     isStrField (dataOf x) ("id") && isNumField (dataOf x) ("quantity")
   else if jgetStr x ("type") = some ("status") then
     actionIs x ("update") &&
     isStrField (dataOf x) ("type") && isNumField (dataOf x) ("value")
   else if jgetStr x ("type") = some ("location") then
     actionIs x ("move") &&
     isStrField (dataOf x) ("name") && isStrField (dataOf x) ("description")
   else if jgetStr x ("type") = some ("quest") then
     actionIn x [("start"), ("update"), ("complete")] &&
     isStrField (dataOf x) ("id") && isNumField (dataOf x) ("progress")
   else false)

/-- The filter body of `game.ts` `validateAndProcessEffects`: structural
checks, the allowed-type membership test, then `validateEffect`. -/
def keepEffect (x : JsonValue) : Bool :=
  jsObjLike x &&
  truthyField x ("type") && truthyField x ("action") && truthyField x ("data") &&
  typeIn x [("item"), ("location"), ("quest"), ("status")] &&
  validateEffect x

/-- A validated game effect as returned by `game.ts`
`validateAndProcessEffects` (the TypeScript `GameEffect` interface types
`type` and `action` as strings; validation guarantees both). -/
structure GameEffect where
  type : String
  action : String
  data : JsonValue

/-- String content of an optional value known (after validation) to be a
string; the fallback branch is unreachable on validated effects. -/
def strOf (v : Option JsonValue) : String :=
  match v with
  | some (.str s) => s
  | _ => ("")

/-- The `.map` of `validateAndProcessEffects`, projecting the three
retained fields. -/
def toGameEffect (x : JsonValue) : GameEffect :=
  { type := strOf (getField x ("type"))
    action := strOf (getField x ("action"))
    data := (getField x ("data")).getD .null }

/-- `game.ts` `validateAndProcessEffects`: `[]` unless the argument is an
array, else filter with `keepEffect` and project. -/
def validateAndProcessEffects (v : JsonValue) : List GameEffect :=
  match v with
  | .arr xs => (xs.filter keepEffect).map toGameEffect
  | _ => []

/-! ### Memory retrieval (`game.ts` `retrieveRelevantMemories`) -/

/-- A row of the `memories` table as returned by D1 (fields used by
`mapDbToMemory`; the JSON `metadata` and `embedding` columns play no role
in the claims under study and are omitted). -/
structure DbRow where
  id : String
  player_id : String
  rowType : String
  content : String
  timestamp : String
  location : String
  importance : ℚ
  deriving DecidableEq, Repr

/-- Outcome of `env.DB.prepare(...).all()` for the player's memories:
either the query throws, or it yields rows. -/
inductive DbOutcome where
  | err : DbOutcome
  | ok : List DbRow → DbOutcome
  deriving DecidableEq, Repr

/-- Outcome of the `env.AI.run` embedding call in
`retrieveRelevantMemories`: the promise rejects (`err`), the response
lacks `data[0]` (`malformed`), or it yields the vector `data[0]`. -/
inductive EmbOutcome where
  | err : EmbOutcome
  | malformed : EmbOutcome
  | ok : List ℚ → EmbOutcome
  deriving DecidableEq, Repr

/-- Vectorize match metadata (`VectorizeQueryResult`): every field is an
optional string in the index.  `importance` is modelled as the numeric
value `Number(metadata.importance)` would produce, with `none` standing
both for an absent field and for a non-numeric string (`Number` yields
`NaN` in both cases, and `NaN` and absence behave identically in all code
paths below). -/
structure VMeta where
  playerId : Option String
  mtype : Option String
  content : Option String
  timestamp : Option String
  location : Option String
  importance : Option ℚ
  deriving DecidableEq, Repr

/-- A similarity-index match (`id`, `score`, optional `metadata`).  The
`score` is optional to model `match.score || 0`. -/
structure VMatch where
  id : String
  score : Option ℚ
  metadata : Option VMeta
  deriving DecidableEq, Repr

/-- Outcome of `env.MEMORIES_VECTORSTORE.query`. -/
inductive VecOutcome where
  | err : VecOutcome
  | ok : List VMatch → VecOutcome
  deriving DecidableEq, Repr

/-- A `GameMemoryEntry` as returned by `retrieveRelevantMemories`.
`importance` is `Number(...)` of the stored value, so it can be `NaN`
(modelled `none`) on the vector path; `score` is present exactly on the
vector path (`score: match.score || 0`), absent on the D1 fallback path.
The entry's open `metadata` map is irrelevant to the claims and omitted. -/
structure GameMemoryEntry where
  id : String
  playerId : String
  mtype : String
  content : String
  timestamp : String
  location : String
  importance : Option ℚ
  score : Option ℚ
  deriving DecidableEq, Repr

/-- `mapDbToMemory` of `retrieveRelevantMemories`. -/
def mapDbToMemory (r : DbRow) : GameMemoryEntry :=
  { id := r.id, playerId := r.player_id, mtype := r.rowType,
    content := r.content, timestamp := r.timestamp, location := r.location,
    importance := some r.importance, score := none }

/-- Descending-importance order used by the D1 fallback sort
(`b.importance - a.importance`); `a` may precede `b` when the comparator
is non-positive. -/
def dbRank (a b : GameMemoryEntry) : Prop :=
  b.importance.getD 0 ≤ a.importance.getD 0

instance : DecidableRel dbRank := fun a b =>
  inferInstanceAs (Decidable (b.importance.getD 0 ≤ a.importance.getD 0))

/-- The D1 fallback expression of `retrieveRelevantMemories`:
`(dbMemories.results || []).map(mapDbToMemory).sort(...).slice(0, limit)`.
JavaScript array sort is stable, so it is modelled by insertion sort,
which computes the same (unique) stable reordering. -/
def fallbackList (rows : List DbRow) (limit : ℕ) : List GameMemoryEntry :=
  ((rows.map mapDbToMemory).insertionSort dbRank).take limit

/-- The player post-filter of the vector matches:
`!!match.metadata && String(match.metadata?.playerId) === String(playerId)`
(`String(undefined)` is the string `undefined`). -/
def passFilter (pid : String) (m : VMatch) : Bool :=
  match m.metadata with
  | none => false
  | some md => md.playerId.getD ("undefined") = pid

/-- Fallback metadata for the (unreachable after `passFilter`) case of a
match without metadata. -/
def emptyVMeta : VMeta :=
  { playerId := none, mtype := none, content := none,
    timestamp := none, location := none, importance := none }

/-- The `.map` of the vector path, building a `GameMemoryEntry` from a
match: `String(...)` of each metadata field (`undefined` stringifies to
the string `undefined`), `Number(metadata.importance)` (possibly `NaN`,
i.e. `none`), and `score: match.score || 0`. -/
def toEntry (m : VMatch) : GameMemoryEntry :=
  let md := m.metadata.getD emptyVMeta
  { id := m.id
    playerId := md.playerId.getD ("undefined")
    mtype := md.mtype.getD ("undefined")
    content := md.content.getD ("undefined")
    timestamp := md.timestamp.getD ("undefined")
    location := md.location.getD ("undefined")
    importance := md.importance
    score := some (m.score.getD 0) }

/-- Rational multiplication, written so that it evaluates by kernel
reduction (the library's `Rat.mul` is irreducible); `qmul_eq_mul` below
identifies it with ordinary multiplication. -/
def qmul (a b : ℚ) : ℚ :=
  mkRat (a.num * b.num) (a.den * b.den)

/-- `a.importance || 0.5` on the entry's possibly-`NaN` importance: both
`NaN` (`none`) and `0` are falsy and replaced by `0.5`. -/
def effImp (imp : Option ℚ) : ℚ :=
  match imp with
  | none => mkRat 1 2
  | some q => if q = 0 then mkRat 1 2 else q

/-- The combined ranking key `(a.score || 0) * (a.importance || 0.5)` of
the vector-path sort comparator. -/
def combinedScore (e : GameMemoryEntry) : ℚ :=
  qmul (e.score.getD 0) (effImp e.importance)

/-- Descending order on the combined key (comparator
`scoreB - scoreA`; `a` may precede `b` when the comparator is
non-positive). -/
def rank (a b : GameMemoryEntry) : Prop :=
  combinedScore b ≤ combinedScore a

instance : DecidableRel rank := fun a b =>
  inferInstanceAs (Decidable (combinedScore b ≤ combinedScore a))

instance : IsTotal GameMemoryEntry rank :=
  ⟨fun a b => le_total (combinedScore b) (combinedScore a)⟩

instance : IsTrans GameMemoryEntry rank :=
  ⟨fun _ _ _ hab hbc => le_trans hbc hab⟩

/-- The vector-path pipeline of `retrieveRelevantMemories` (lines
443-469): player filter, entry construction, stable sort on the combined
key (JavaScript sort modelled by insertion sort), then
`slice(0, limit)`. -/
def rankedMatches (pid : String) (ms : List VMatch) (limit : ℕ) :
    List GameMemoryEntry :=
  (((ms.filter (passFilter pid)).map toEntry).insertionSort rank).take limit

/-- The exceptions that can escape the body of the `try` block of
`retrieveRelevantMemories` in the model: a D1 query rejection, an
embedding-provider rejection, a similarity-index rejection. -/
inductive RetrieveError where
  | dbError : RetrieveError
  | providerError : RetrieveError
  | indexError : RetrieveError
  deriving DecidableEq, Repr

/-- The body of the `try` block of `retrieveRelevantMemories`, in source
order: D1 query, embedding call, the `!embeddingResponse?.data?.[0]`
fallback, the 768-dimension check (`return []`), the vector query, the
empty-matches fallback, the ranked pipeline, and the final
`memories.length > 0 ? memories : fallback`. -/
def retrieveInner (pid : String) (db : DbOutcome) (emb : EmbOutcome)
    (vec : VecOutcome) (limit : ℕ) :
    Except RetrieveError (List GameMemoryEntry) :=
  match db with
  | .err => .error .dbError
  | .ok rows =>
    match emb with
    | .err => .error .providerError
    | .malformed => .ok (fallbackList rows limit)
    | .ok v =>
      if v.length = 768 then
        match vec with
        | .err => .error .indexError
        | .ok ms =>
          if ms.isEmpty then .ok (fallbackList rows limit)
          else if 0 < (rankedMatches pid ms limit).length then
            .ok (rankedMatches pid ms limit)
          else .ok (fallbackList rows limit)
      else .ok []

/-- `retrieveRelevantMemories`: the `try` body wrapped in the
`catch (error) { ...; return []; }` handler. -/
def retrieveRelevantMemories (pid : String) (db : DbOutcome)
    (emb : EmbOutcome) (vec : VecOutcome) (limit : ℕ) :
    List GameMemoryEntry :=
  match retrieveInner pid db emb vec limit with
  | .ok l => l
  | .error _ => []

/-- Whether the embedding provider is invoked during
`retrieveRelevantMemories`: the `env.AI.run` call at line 409 is reached
exactly when the preceding D1 query did not throw; nothing before it
inspects `limit`. -/
def embedCalled (db : DbOutcome) : Bool :=
  match db with
  | .err => false
  | .ok _ => true

/-! ### Memory write-back (`game.ts` `generateStoryResponse` lines 131-140
and `storeMemories` lines 287-308) -/

/-- JavaScript string interpolation of a field access
(an absent property interpolates as the string `undefined`).  Validated
effects only reach the string and number cases; number display is
modelled exactly for integers, which is all the claims exercise. -/
def jsDisplayField (v : JsonValue) (k : String) : String :=
  match getField v k with
  | none => ("undefined")
  | some (.str s) => s
  | some (.num q) => if q.den = 1 then toString q.num else toString q
  | some (.bool true) => ("true")
  | some (.bool false) => ("false")
  | some .null => ("null")
  | some (.arr _) => ("")
  | some (.obj _) => ("[object Object]")

/-- The memory-worthiness filter applied before `storeMemories` is
called (`generateStoryResponse` lines 132-136 and identically
`interpretEffects` lines 210-214): quest effects, item-add effects, and
location effects. -/
def memoryWorthy (e : GameEffect) : Bool :=
  e.type = ("quest") || (e.type = ("item") && e.action = ("add")) || e.type = ("location")

/-- The `switch` of `storeMemories` building `content` and `importance`
for one effect.  `none` models the branches that leave `content` empty
(so that `if (!content) continue` skips the effect): the `default` case
and `item` with a non-`add` action.  Every branch that sets `content`
starts it with a non-empty literal, so emptiness coincides exactly with
those branches. -/
def summarizeEffect (e : GameEffect) : Option (String × ℚ) :=
  if e.type = ("quest") then
    some (("Quest ") ++ e.action ++ (": ") ++ jsDisplayField e.data ("id"),
      mkRat 4 5)
  else if e.type = ("item") then
    (if e.action = ("add") then
      some (("Found item: ") ++ jsDisplayField e.data ("id") ++ (" (x") ++
            jsDisplayField e.data ("quantity") ++ (")"), mkRat 3 5)
     else none)
  else if e.type = ("location") then
    some (("Moved to ") ++ jsDisplayField e.data ("name") ++ (": ") ++
          jsDisplayField e.data ("description"), mkRat 7 10)
  else none

/-- The importance value `storeMemories` holds after the `switch` for a
given effect: the initialiser `0.5` unless a branch overwrote it. -/
def storedImportance (e : GameEffect) : ℚ :=
  match summarizeEffect e with
  | some p => p.2
  | none => mkRat 1 2

/-- The fields of the memory record `storeMemories` builds for one
effect that are determined by the effect alone (`playerId`, the fresh
`nanoid`, the wall-clock timestamp, and the embedding are supplied by the
environment and carry no per-effect logic). -/
structure MemorySummary where
  mtype : String
  content : String
  location : String
  importance : ℚ
  deriving DecidableEq, Repr

/-- The record `storeMemories` constructs for one summarised effect:
`location` is `effect.data.name` for location effects and the literal
`unknown` otherwise. -/
def mkMemorySummary (e : GameEffect) : MemorySummary :=
  let p := (summarizeEffect e).getD (("") , mkRat 1 2)
  { mtype := e.type
    content := p.1
    location := if e.type = ("location") then jsDisplayField e.data ("name")
                else ("unknown")
    importance := p.2 }

/-- The per-batch loop of `storeMemories`: one record per effect whose
`switch` set a non-empty `content`. -/
def storeMemoriesSummaries (effects : List GameEffect) : List MemorySummary :=
  effects.filterMap (fun e => (summarizeEffect e).map (fun _ => mkMemorySummary e))

/-- Write-back for a batch of validated effects as performed by
`generateStoryResponse`: filter to memory-worthy effects, then
`storeMemories`. -/
def writeBack (effects : List GameEffect) : List MemorySummary :=
  storeMemoriesSummaries (effects.filter memoryWorthy)

/-! ### The `player.ts` identifier-normalisation step (lines 1409-1425) -/

/-- Membership in the character class of lowercase letters, digits,
underscore and hyphen used by the normalisation replace. -/
def isIdChar (c : Char) : Bool :=
  (97 ≤ c.toNat && c.toNat ≤ 122) || (48 ≤ c.toNat && c.toNat ≤ 57) ||
  c.toNat = 95 || c.toNat = 45

/-- `player.ts` line 1412:
`effect.data.id.toLowerCase().replace(...)` removing every character
outside the class; `toLowerCase` is modelled by `Char.toLower`, exact on
the ASCII range the class tests. -/
def normalizeEffectId (s : String) : String :=
  String.mk ((s.data.map Char.toLower).filter isIdChar)

/-! ### `JSON.parse` and effect extraction (`game.ts` `interpretEffects`
lines 198-207) -/

/-- The opening curly bracket character. -/
def lbrace : Char := Char.ofNat 123

/-- The closing curly bracket character. -/
def rbrace : Char := Char.ofNat 125

/-- The double-quote character. -/
def dquote : Char := Char.ofNat 34

/-- The backslash character. -/
def bslash : Char := Char.ofNat 92

/-- JSON insignificant whitespace (space, tab, line feed, carriage
return). -/
def isJsonWs (c : Char) : Bool :=
  c.toNat = 32 || c.toNat = 9 || c.toNat = 10 || c.toNat = 13

/-- Drop leading JSON whitespace. -/
def skipWs : List Char → List Char
  | [] => []
  | c :: cs => if isJsonWs c then skipWs cs else c :: cs

/-- Decimal digit test on code points. -/
def isDigitChar (c : Char) : Bool :=
  48 ≤ c.toNat && c.toNat ≤ 57

/-- Value of a hexadecimal digit, if any. -/
def hexVal (c : Char) : Option ℕ :=
  if 48 ≤ c.toNat && c.toNat ≤ 57 then some (c.toNat - 48)
  else if 97 ≤ c.toNat && c.toNat ≤ 102 then some (c.toNat - 87)
  else if 65 ≤ c.toNat && c.toNat ≤ 70 then some (c.toNat - 55)
  else none

/-- Longest digit prefix and the remainder. -/
def takeDigits : List Char → List Char × List Char
  | [] => ([], [])
  | c :: cs =>
    if isDigitChar c then
      let p := takeDigits cs
      (c :: p.1, p.2)
    else ([], c :: cs)

/-- Numeric value of a digit string. -/
def natOfDigits (ds : List Char) : ℕ :=
  ds.foldl (fun n c => n * 10 + (c.toNat - 48)) 0

/-- JSON string body parser: consumes up to and including the closing
quote, decoding escapes.  A `\u` escape decodes to the code point of its
four hex digits (surrogate-pair recombination is not modelled; no claim
exercises it).  Control characters are rejected, as in `JSON.parse`. -/
def parseJStr : List Char → List Char → Option (String × List Char)
  | [], _ => none
  | c :: cs, acc =>
    if c = dquote then some (String.mk acc.reverse, cs)
    else if c = bslash then
      match cs with
      | [] => none
      | e :: cs2 =>
        if e = dquote then parseJStr cs2 (dquote :: acc)
        else if e = bslash then parseJStr cs2 (bslash :: acc)
        else if e = '/' then parseJStr cs2 ('/' :: acc)
        else if e = 'b' then parseJStr cs2 (Char.ofNat 8 :: acc)
        else if e = 'f' then parseJStr cs2 (Char.ofNat 12 :: acc)
        else if e = 'n' then parseJStr cs2 (Char.ofNat 10 :: acc)
        else if e = 'r' then parseJStr cs2 (Char.ofNat 13 :: acc)
        else if e = 't' then parseJStr cs2 (Char.ofNat 9 :: acc)
        else if e = 'u' then
          match cs2 with
          | h1 :: h2 :: h3 :: h4 :: cs3 =>
            match hexVal h1, hexVal h2, hexVal h3, hexVal h4 with
            | some a, some b, some c3, some d =>
              parseJStr cs3 (Char.ofNat (((a * 16 + b) * 16 + c3) * 16 + d) :: acc)
            | _, _, _, _ => none
          | _ => none
        else none
    else if c.toNat < 32 then none
    else parseJStr cs (c :: acc)

/-- JSON number parser (strict grammar: optional minus, integer part
without leading zeros, optional fraction, optional exponent). -/
def parseJNum (l : List Char) : Option (ℚ × List Char) :=
  let p :=
    match l with
    | c :: cs => if c = '-' then (true, cs) else (false, l)
    | [] => (false, l)
  let neg := p.1
  let ip := takeDigits p.2
  match ip.1 with
  | [] => none
  | d :: ds =>
    if d = '0' && !ds.isEmpty then none
    else
      let fp :=
        match ip.2 with
        | c :: cs => if c = '.' then some (takeDigits cs) else none
        | [] => none
      match fp with
      | some ([], _) => none
      | _ =>
        let fds := (fp.map (·.1)).getD []
        let afterF := (fp.map (·.2)).getD ip.2
        let ep :=
          match afterF with
          | c :: cs =>
            if c = 'e' || c = 'E' then
              match cs with
              | s :: cs2 =>
                if s = '-' then some (true, takeDigits cs2)
                else if s = '+' then some (false, takeDigits cs2)
                else some (false, takeDigits cs)
              | [] => some (false, ([], []))
            else none
          | [] => none
        match ep with
        | some (_, ([], _)) => none
        | _ =>
          let rest := (ep.map (·.2.2)).getD afterF
          let mantissa : ℚ :=
            (natOfDigits (d :: ds) : ℚ) +
              (natOfDigits fds : ℚ) / ((10 : ℚ) ^ fds.length)
          let signed := if neg then -mantissa else mantissa
          let expo : ℤ :=
            match ep with
            | some (eneg, (eds, _)) =>
              if eneg then -(natOfDigits eds : ℤ) else (natOfDigits eds : ℤ)
            | none => 0
          some (signed * (10 : ℚ) ^ expo, rest)

/-- Work items of the JSON value parser: a value, the items of an array
being read, or the members of an object being read. -/
inductive ParseMode where
  | val : List Char → ParseMode
  | items : List Char → List JsonValue → ParseMode
  | members : List Char → List (String × JsonValue) → ParseMode

/-- Fuel-driven recursive-descent JSON parser (single recursion on the
fuel so that every application reduces definitionally). -/
def parseStep : ℕ → ParseMode → Option (JsonValue × List Char)
  | 0, _ => none
  | fuel + 1, .val l =>
    match skipWs l with
    | [] => none
    | c :: cs =>
      if c = lbrace then
        match skipWs cs with
        | d :: ds => if d = rbrace then some (.obj [], ds)
                     else parseStep fuel (.members (d :: ds) [])
        | [] => none
      else if c = '[' then
        match skipWs cs with
        | d :: ds => if d = ']' then some (.arr [], ds)
                     else parseStep fuel (.items (d :: ds) [])
        | [] => none
      else if c = dquote then
        (parseJStr cs []).map (fun p => (.str p.1, p.2))
      else if c = 't' then
        match cs with
        | 'r' :: 'u' :: 'e' :: r => some (.bool true, r)
        | _ => none
      else if c = 'f' then
        match cs with
        | 'a' :: 'l' :: 's' :: 'e' :: r => some (.bool false, r)
        | _ => none
      else if c = 'n' then
        match cs with
        | 'u' :: 'l' :: 'l' :: r => some (.null, r)
        | _ => none
      else
        (parseJNum (c :: cs)).map (fun p => (.num p.1, p.2))
  | fuel + 1, .items l acc =>
    match parseStep fuel (.val l) with
    | none => none
    | some (v, r) =>
      match skipWs r with
      | c :: cs =>
        if c = ',' then parseStep fuel (.items cs (v :: acc))
        else if c = ']' then some (.arr (v :: acc).reverse, cs)
        else none
      | [] => none
  | fuel + 1, .members l acc =>
    match skipWs l with
    | c :: cs =>
      if c = dquote then
        match parseJStr cs [] with
        | none => none
        | some (k, r) =>
          match skipWs r with
          | d :: ds =>
            if d = ':' then
              match parseStep fuel (.val ds) with
              | none => none
              | some (v, r2) =>
                match skipWs r2 with
                | e :: es =>
                  if e = ',' then parseStep fuel (.members es ((k, v) :: acc))
                  else if e = rbrace then some (.obj ((k, v) :: acc).reverse, es)
                  else none
                | [] => none
            else none
          | [] => none
      else none
    | [] => none

/-- `JSON.parse`: parse one value and require only whitespace to
follow; `none` models a thrown `SyntaxError`. -/
def parseJson (s : String) : Option JsonValue :=
  match parseStep (3 * s.length + 3) (.val s.data) with
  | some (v, r) => if (skipWs r).isEmpty then some v else none
  | none => none

/-- The parse-and-validate tail of `interpretEffects` (lines 198-207):
an empty (falsy) response returns `[]`; a parse failure is caught and
returns `[]`; otherwise the parsed value is validated.  The function
never throws. -/
def interpretEffectsExtract (r : String) : List GameEffect :=
  if r.isEmpty then []
  else
    match parseJson r with
    | some v => validateAndProcessEffects v
    | none => []

/-! ### Spec-side definitions

The following definitions are written from the specification's words, to
be compared against the code-side definitions above. -/

/-- Opening bracket of a top-level array or object. -/
def isOpenBracket (c : Char) : Bool :=
  c = '[' || c = lbrace

/-- Closing bracket of a top-level array or object. -/
def isCloseBracket (c : Char) : Bool :=
  c = ']' || c = rbrace

/-- Modelled from the spec: the bracket-matching scan of §4.2 step 2.
Starting at an opening bracket, keep a depth counter and return the
prefix up to the bracket that closes the first one. -/
def bracketTake : List Char → ℕ → List Char → Option (List Char)
  | [], _, _ => none
  | c :: rest, depth, acc =>
    if isOpenBracket c then bracketTake rest (depth + 1) (c :: acc)
    else if isCloseBracket c then
      if depth = 1 then some ((c :: acc).reverse)
      else bracketTake rest (depth - 1) (c :: acc)
    else bracketTake rest depth (c :: acc)

/-- Modelled from the spec: "locate the first top-level array or object
via bracket matching" — the substring from the first opening bracket to
its matching closing bracket. -/
def bracketSub (s : String) : Option String :=
  match s.data.dropWhile (fun c => !isOpenBracket c) with
  | [] => none
  | l => (bracketTake l 0 []).map String.mk

/-- Modelled from the spec (§4.2 step 2, structural recovery): attempt a
direct parse of the text; on failure parse the first bracket-matched
top-level array or object; on failure, no structure. -/
def specStructuralRecovery (s : String) : Option JsonValue :=
  match parseJson s with
  | some v => some v
  | none =>
    match bracketSub s with
    | some sub => parseJson sub
    | none => none

/-- Modelled from the spec: the extraction contract of §4.2 as asserted
by the claim — sanitised text is parsed with structural recovery and the
candidate records are validated; total, returning `[]` on failure. -/
def specExtract (s : String) : List GameEffect :=
  match specStructuralRecovery s with
  | some v => validateAndProcessEffects v
  | none => []

/-- Modelled from the spec (claim C2): the combined score
`similarityScore * importance`, "using 0.5 when importance is absent from
metadata" — and only then. -/
def specCombinedScore (e : GameMemoryEntry) : ℚ :=
  qmul (e.score.getD 0) (e.importance.getD (mkRat 1 2))

/-- Modelled from the spec: descending order on the claimed combined
score. -/
def specRank (a b : GameMemoryEntry) : Prop :=
  specCombinedScore b ≤ specCombinedScore a

instance : DecidableRel specRank := fun a b =>
  inferInstanceAs (Decidable (specCombinedScore b ≤ specCombinedScore a))

/-- Modelled from the spec (claim C2): discard matches of other players,
score each remaining match, sort descending by combined score (stable),
take the first `limit`. -/
def specRankedMatches (pid : String) (ms : List VMatch) (limit : ℕ) :
    List GameMemoryEntry :=
  (((ms.filter (passFilter pid)).map toEntry).insertionSort specRank).take limit

/-- The type/action table asserted by claim C1 (five variants; item:
add/remove/use, quest: add/update/complete, location: update, status:
add/remove/update, attribute: update). -/
def c1ClaimAllowed (t a : String) : Bool :=
  (t = ("item") && [("add"), ("remove"), ("use")].contains a) ||
  (t = ("quest") && [("add"), ("update"), ("complete")].contains a) ||
  (t = ("location") && a = ("update")) ||
  (t = ("status") && [("add"), ("remove"), ("update")].contains a) ||
  (t = ("attribute") && a = ("update"))

/-- Claim C1 as stated: every effect returned by the extraction filter
carries a type/action pair from the claimed table. -/
def c1Claim : Prop :=
  ∀ (xs : List JsonValue) (e : GameEffect),
    e ∈ validateAndProcessEffects (.arr xs) →
    c1ClaimAllowed e.type e.action = true

/-- The type/action table actually enforced by `game.ts` (`validateEffect`):
four variants; item: add/remove/use, location: move, quest:
start/update/complete, status: update. -/
def gameAllowedPair (t a : String) : Bool :=
  (t = ("item") && [("add"), ("remove"), ("use")].contains a) ||
  (t = ("location") && a = ("move")) ||
  (t = ("quest") && [("start"), ("update"), ("complete")].contains a) ||
  (t = ("status") && a = ("update"))

/-- The per-variant payload schema enforced by `game.ts`
(`validateEffect`): required fields with required primitive types. -/
def gameSchema (t : String) (d : JsonValue) : Bool :=
  if t = ("item") then isStrField d ("id") && isNumField d ("quantity")
  else if t = ("location") then isStrField d ("name") && isStrField d ("description")
  else if t = ("quest") then isStrField d ("id") && isNumField d ("progress")
  else if t = ("status") then isStrField d ("type") && isNumField d ("value")
  else false

/-- A location effect with the action the code accepts (`move`). -/
def locMoveData : JsonValue :=
  .obj [(("name"), .str ("cave")), (("description"), .str ("dark"))]

/-- Concrete candidate effect record: location/move. -/
def locMoveJson : JsonValue :=
  .obj [(("type"), .str ("location")), (("action"), .str ("move")),
        (("data"), locMoveData)]

/-- Concrete candidate effect record: an item effect missing `quantity`
(claim C9's example of an invalid sibling). -/
def itemNoQtyJson : JsonValue :=
  .obj [(("type"), .str ("item")), (("action"), .str ("add")),
        (("data"), .obj [(("id"), .str ("sword"))])]

/-- Concrete candidate effect record: a valid item effect whose
identifier is upper-case with a space (claim C8). -/
def itemUpperJson : JsonValue :=
  .obj [(("type"), .str ("item")), (("action"), .str ("add")),
        (("data"), .obj [(("id"), .str ("SWORD X")), (("quantity"), .num 1)])]

/-- Claim C8 as stated: every identifier in the effects returned by the
extraction pipeline is lowercase and drawn from the a-z, 0-9,
underscore, hyphen class. -/
def c8Claim : Prop :=
  ∀ (xs : List JsonValue) (e : GameEffect),
    e ∈ validateAndProcessEffects (.arr xs) →
    ∀ s : String, jgetStr e.data ("id") = some s → s.data.all isIdChar = true

/-- Claim C4 as stated: extraction behaves like direct parsing followed,
on failure, by bracket-matching recovery. -/
def c4Claim : Prop :=
  ∀ r : String, interpretEffectsExtract r = specExtract r

/-- Generator output whose prefix spoils direct parsing but which
contains a bracket-matched effect array (claim C4's refuting input). -/
def c4Input : String :=
  ("x [\x7b\"type\":\"status\",\"action\":\"update\",\"data\":\x7b\"type\":\"hp\",\"value\":1\x7d\x7d]")

/-- The effect subset claim C5 asserts is summarised: quest, location,
or item with action add. -/
def c5Qualifies (e : GameEffect) : Bool :=
  e.type = ("quest") || e.type = ("location") ||
  (e.type = ("item") && e.action = ("add"))

/-- The fixed importance table of claim C5: quest 0.8, location 0.7,
item-add 0.6, default 0.5. -/
def c5ImportanceTable (e : GameEffect) : ℚ :=
  if e.type = ("quest") then mkRat 4 5
  else if e.type = ("location") then mkRat 7 10
  else if e.type = ("item") && e.action = ("add") then mkRat 3 5
  else mkRat 1 2

/-! Claim-side statements about retrieval. -/

/-- Positional form of "at equal similarity a match with higher
importance ranks at or above one with lower importance" on a returned
list. -/
def rankedAtOrAbove (out : List GameMemoryEntry) : Prop :=
  ∀ i j : Fin out.length,
    (out.get i).score = (out.get j).score →
    ∀ qi qj : ℚ,
      (out.get i).importance = some qi → (out.get j).importance = some qj →
      qj < qi → (i : ℕ) ≤ (j : ℕ)

/-- Positional ranking property restricted to strictly positive
similarity and strictly positive importances (the amended form of the
second half of claim C2). -/
def rankedAtOrAbovePos (out : List GameMemoryEntry) : Prop :=
  ∀ i j : Fin out.length,
    (out.get i).score = (out.get j).score →
    0 < (out.get i).score.getD 0 →
    ∀ qi qj : ℚ,
      (out.get i).importance = some qi → (out.get j).importance = some qj →
      0 < qj → qj < qi → (i : ℕ) ≤ (j : ℕ)

/-- Claim C2 as stated: whenever the query vector is well-formed and at
least one match belongs to the requesting player, the retrieval result
is the claimed filter/score/sort/truncate pipeline (importance default
0.5 exactly when absent), and higher importance ranks at or above lower
at equal similarity. -/
def c2Claim : Prop :=
  ∀ (pid : String) (rows : List DbRow) (v : List ℚ) (ms : List VMatch)
    (limit : ℕ),
    v.length = 768 →
    (∃ m ∈ ms, passFilter pid m = true) →
    retrieveRelevantMemories pid (.ok rows) (.ok v) (.ok ms) limit =
      specRankedMatches pid ms limit ∧
    rankedAtOrAbove
      (retrieveRelevantMemories pid (.ok rows) (.ok v) (.ok ms) limit)

/-- Metadata of a match belonging to player `p` with a given stored
importance value. -/
def vmetaP (imp : Option ℚ) : VMeta :=
  { playerId := some ("p"), mtype := some ("event"), content := some ("c"),
    timestamp := some ("ts"), location := some ("l"), importance := imp }

/-- Match A: similarity -1, importance 2. -/
def mA : VMatch := { id := ("A"), score := some (mkRat (-1) 1), metadata := some (vmetaP (some 2)) }

/-- Match B: similarity -1, importance 1. -/
def mB : VMatch := { id := ("B"), score := some (mkRat (-1) 1), metadata := some (vmetaP (some 1)) }

/-- Match C: similarity 1, importance 0.3. -/
def mC : VMatch := { id := ("C"), score := some 1, metadata := some (vmetaP (some (mkRat 3 10))) }

/-- Match D: similarity 1, importance 0 (falsy, silently replaced by
0.5 by the comparator). -/
def mD : VMatch := { id := ("D"), score := some 1, metadata := some (vmetaP (some 0)) }

/-- Match E: similarity 0, importance 1. -/
def mE : VMatch := { id := ("E"), score := some 0, metadata := some (vmetaP (some 1)) }

/-- Match F: similarity 0, importance 2. -/
def mF : VMatch := { id := ("F"), score := some 0, metadata := some (vmetaP (some 2)) }

/-- The refuting match list for claim C2. -/
def cexMatches : List VMatch := [mA, mB, mC, mD, mE, mF]

/-- A well-formed 768-dimensional query embedding. -/
def v768 : List ℚ := List.replicate 768 0

/-- A malformed 767-dimensional query embedding. -/
def v767 : List ℚ := List.replicate 767 0

/-- A relational memory row of player `p`. -/
def rowX : DbRow :=
  { id := ("m1"), player_id := ("p"), rowType := ("event"), content := ("c"),
    timestamp := ("ts"), location := ("l"), importance := mkRat 1 2 }

/-- Claim C3 as stated: on embedding failure (thrown or malformed) and on
zero index matches for the player, retrieval returns the
importance-ordered relational list truncated to `limit`. -/
def c3Claim : Prop :=
  ∀ (pid : String) (rows : List DbRow) (vec : VecOutcome) (limit : ℕ),
    retrieveRelevantMemories pid (.ok rows) .err vec limit = fallbackList rows limit ∧
    retrieveRelevantMemories pid (.ok rows) .malformed vec limit = fallbackList rows limit ∧
    (∀ v : List ℚ, v.length = 768 →
      retrieveRelevantMemories pid (.ok rows) (.ok v) (.ok []) limit =
        fallbackList rows limit) ∧
    (∀ (v : List ℚ) (ms : List VMatch), v.length = 768 →
      (∀ m ∈ ms, passFilter pid m = false) →
      retrieveRelevantMemories pid (.ok rows) (.ok v) (.ok ms) limit =
        fallbackList rows limit)

/-- Claim C6 as stated (as far as it is statable of the code): a
dimension mismatch on the query vector is treated as a hard error, i.e.
the request computation faults rather than returning a value. -/
def c6Claim : Prop :=
  ∀ (pid : String) (rows : List DbRow) (v : List ℚ) (vec : VecOutcome)
    (limit : ℕ),
    v.length ≠ 768 →
    ∃ er : RetrieveError,
      retrieveInner pid (.ok rows) (.ok v) vec limit = .error er

/-- Claim C7 as stated: `limit = 0` yields the empty list and no
embedding-provider call. -/
def c7Claim : Prop :=
  ∀ (pid : String) (rows : List DbRow) (emb : EmbOutcome) (vec : VecOutcome),
    retrieveRelevantMemories pid (.ok rows) emb vec 0 = [] ∧
    embedCalled (.ok rows) = false

instance : IsTotal GameMemoryEntry dbRank :=
  ⟨fun a b => le_total (b.importance.getD 0) (a.importance.getD 0)⟩

instance : IsTrans GameMemoryEntry dbRank :=
  ⟨fun _ _ _ hab hbc => le_trans hbc hab⟩

/-! ### Helper lemmas -/

theorem qmul_eq_mul (a b : ℚ) : qmul a b = a * b := by
  unfold qmul
  rw [Rat.mkRat_eq_div]
  push_cast
  rw [← div_mul_div_comm, Rat.num_div_den, Rat.num_div_den]

/-! ### Helper lemmas about the effect-validation filter -/

theorem mem_validateAndProcessEffects {xs : List JsonValue} {e : GameEffect}
    (he : e ∈ validateAndProcessEffects (.arr xs)) :
    ∃ x ∈ xs, keepEffect x = true ∧ e = toGameEffect x := by
  unfold validateAndProcessEffects at he
  rw [List.mem_map] at he
  obtain ⟨x, hx, rfl⟩ := he
  rw [List.mem_filter] at hx
  exact ⟨x, hx.1, hx.2, rfl⟩

theorem jgetStr_getField {x : JsonValue} {k s : String}
    (h : jgetStr x k = some s) : getField x k = some (.str s) := by
  unfold jgetStr at h
  revert h
  cases hg : getField x k with
  | none => intro h; exact absurd h (by simp)
  | some v => cases v <;> intro h <;> simp_all

theorem strOf_of_jgetStr {x : JsonValue} {k s : String}
    (h : jgetStr x k = some s) : strOf (getField x k) = s := by
  rw [jgetStr_getField h]
  rfl

theorem actionIn_elim {x : JsonValue} {as : List String}
    (h : actionIn x as = true) :
    ∃ a, jgetStr x ("action") = some a ∧ as.contains a = true := by
  unfold actionIn at h
  revert h
  cases hg : jgetStr x ("action") with
  | none => intro h; exact absurd h (by simp)
  | some a => intro h; exact ⟨a, rfl, h⟩

theorem actionIs_elim {x : JsonValue} {a : String}
    (h : actionIs x a = true) : jgetStr x ("action") = some a :=
  of_decide_eq_true h

theorem typeIn_elim {x : JsonValue} {ts : List String}
    (h : typeIn x ts = true) :
    ∃ s, jgetStr x ("type") = some s ∧ ts.contains s = true := by
  unfold typeIn at h
  revert h
  cases hg : jgetStr x ("type") with
  | none => intro h; exact absurd h (by simp)
  | some s => intro h; exact ⟨s, rfl, h⟩

/-- Claim C1 is false of the code: `game.ts` accepts the location/move
record, whose action is outside the claimed location action set
(solely `update`). -/
theorem claim_C1_counterexample : ¬ c1Claim := by
  intro h
  have hmem : toGameEffect locMoveJson ∈ validateAndProcessEffects (.arr [locMoveJson]) := by
    have hev : validateAndProcessEffects (.arr [locMoveJson]) = [toGameEffect locMoveJson] := rfl
    rw [hev]
    exact List.mem_singleton.mpr rfl
  have hc := h [locMoveJson] (toGameEffect locMoveJson) hmem
  exact absurd hc (by decide)

/-- C1 (amended): `game.ts` accepts a candidate effect record only if
its type is one of the four variants item, location, quest, status and
its action is in that variant's code action set (item: add/remove/use;
location: move; quest: start/update/complete; status: update), and every
returned effect satisfies its variant's payload schema. -/
theorem claim_C1 :
    ∀ (xs : List JsonValue) (e : GameEffect),
      e ∈ validateAndProcessEffects (.arr xs) →
      gameAllowedPair e.type e.action = true ∧
      gameSchema e.type e.data = true := by
  intro xs e he
  obtain ⟨x, _, hk, rfl⟩ := mem_validateAndProcessEffects he
  unfold keepEffect at hk
  simp only [Bool.and_eq_true] at hk
  obtain ⟨⟨⟨⟨⟨_, _⟩, _⟩, _⟩, hty⟩, hv⟩ := hk
  obtain ⟨t, hgt, htmem⟩ := typeIn_elim hty
  unfold validateEffect at hv
  rw [hgt] at hv
  simp only [Bool.and_eq_true] at hv
  obtain ⟨⟨⟨_, _⟩, _⟩, hbody⟩ := hv
  simp only [List.contains_eq_any_beq, List.any_cons, List.any_nil, Bool.or_false,
    Bool.or_eq_true, beq_iff_eq] at htmem
  rcases htmem with rfl | rfl | rfl | rfl
  · -- item
    rw [if_pos rfl] at hbody
    simp only [Bool.and_eq_true] at hbody
    obtain ⟨⟨ha, hid⟩, hq⟩ := hbody
    obtain ⟨a, hga, hamem⟩ := actionIn_elim ha
    constructor
    · show gameAllowedPair (strOf (getField x ("type"))) (strOf (getField x ("action"))) = true
      rw [strOf_of_jgetStr hgt, strOf_of_jgetStr hga]
      unfold gameAllowedPair
      simp
      simpa using hamem
    · show gameSchema (strOf (getField x ("type"))) (dataOf x) = true
      rw [strOf_of_jgetStr hgt]
      unfold gameSchema
      simp [hid, hq]
  · -- location
    rw [if_neg (by decide), if_neg (by decide), if_pos rfl] at hbody
    simp only [Bool.and_eq_true] at hbody
    obtain ⟨⟨ha, hn⟩, hd⟩ := hbody
    have hga := actionIs_elim ha
    constructor
    · show gameAllowedPair (strOf (getField x ("type"))) (strOf (getField x ("action"))) = true
      rw [strOf_of_jgetStr hgt, strOf_of_jgetStr hga]
      decide
    · show gameSchema (strOf (getField x ("type"))) (dataOf x) = true
      rw [strOf_of_jgetStr hgt]
      unfold gameSchema
      simp [hn, hd]
  · -- quest
    rw [if_neg (by decide), if_neg (by decide), if_neg (by decide), if_pos rfl] at hbody
    simp only [Bool.and_eq_true] at hbody
    obtain ⟨⟨ha, hid⟩, hp⟩ := hbody
    obtain ⟨a, hga, hamem⟩ := actionIn_elim ha
    constructor
    · show gameAllowedPair (strOf (getField x ("type"))) (strOf (getField x ("action"))) = true
      rw [strOf_of_jgetStr hgt, strOf_of_jgetStr hga]
      unfold gameAllowedPair
      simp
      simpa using hamem
    · show gameSchema (strOf (getField x ("type"))) (dataOf x) = true
      rw [strOf_of_jgetStr hgt]
      unfold gameSchema
      simp [hid, hp]
  · -- status
    rw [if_neg (by decide), if_pos rfl] at hbody
    simp only [Bool.and_eq_true] at hbody
    obtain ⟨⟨ha, hst⟩, hvnum⟩ := hbody
    have hga := actionIs_elim ha
    constructor
    · show gameAllowedPair (strOf (getField x ("type"))) (strOf (getField x ("action"))) = true
      rw [strOf_of_jgetStr hgt, strOf_of_jgetStr hga]
      decide
    · show gameSchema (strOf (getField x ("type"))) (dataOf x) = true
      rw [strOf_of_jgetStr hgt]
      unfold gameSchema
      simp [hst, hvnum]

/-- Witness for C1: the location/move record is accepted and carries the
code's location action and payload schema. -/
theorem claim_C1_witness :
    gameAllowedPair ("location") ("move") = true ∧
    gameSchema ("location") locMoveData = true := by
  have hmem : toGameEffect locMoveJson ∈ validateAndProcessEffects (.arr [locMoveJson]) := by
    have hev : validateAndProcessEffects (.arr [locMoveJson]) = [toGameEffect locMoveJson] := rfl
    rw [hev]
    exact List.mem_singleton.mpr rfl
  exact claim_C1 [locMoveJson] (toGameEffect locMoveJson) hmem

/-- C9: effect validation is per-record — a valid record is kept with
its output regardless of its siblings, and an invalid record is dropped
without disturbing its siblings. -/
theorem claim_C9 :
    ∀ (pre post : List JsonValue) (x : JsonValue),
      (keepEffect x = true →
        validateAndProcessEffects (.arr (pre ++ x :: post)) =
          validateAndProcessEffects (.arr pre) ++
            toGameEffect x :: validateAndProcessEffects (.arr post)) ∧
      (keepEffect x = false →
        validateAndProcessEffects (.arr (pre ++ x :: post)) =
          validateAndProcessEffects (.arr pre) ++
            validateAndProcessEffects (.arr post)) := by
  intro pre post x
  constructor <;> intro h <;>
    simp [validateAndProcessEffects, List.filter_append, List.filter_cons, h]

/-- Witness for C9 (the claim's own example): a batch of an item effect
missing `quantity` and a valid location effect returns only the location
effect. -/
theorem claim_C9_witness :
    keepEffect itemNoQtyJson = false ∧
    validateAndProcessEffects (.arr [itemNoQtyJson, locMoveJson]) =
      [toGameEffect locMoveJson] := by
  refine ⟨rfl, ?_⟩
  have h := (claim_C9 [] [locMoveJson] itemNoQtyJson).2 rfl
  exact h.trans rfl

theorem truthyField_isSome {x : JsonValue} {k : String}
    (h : truthyField x k = true) : ∃ w, getField x k = some w := by
  unfold truthyField at h
  revert h
  cases hg : getField x k with
  | none => intro h; exact absurd h (by simp)
  | some w => intro _; exact ⟨w, rfl⟩

/-- Claim C8 is false of the code it names: `game.ts`
`validateAndProcessEffects` performs no identifier normalisation — it
returns the valid item effect with identifier `SWORD X` verbatim
(upper-case, with a space). -/
theorem claim_C8_counterexample : ¬ c8Claim := by
  intro h
  have hmem : toGameEffect itemUpperJson ∈ validateAndProcessEffects (.arr [itemUpperJson]) := by
    have hev : validateAndProcessEffects (.arr [itemUpperJson]) = [toGameEffect itemUpperJson] := rfl
    rw [hev]
    exact List.mem_singleton.mpr rfl
  have hc := h [itemUpperJson] (toGameEffect itemUpperJson) hmem ("SWORD X") rfl
  exact absurd hc (by decide)

theorem toLower_of_isIdChar {c : Char} (h : isIdChar c = true) :
    c.toLower = c := by
  have hn : ¬(Char.toNat c ≥ 65 ∧ Char.toNat c ≤ 90) := by
    unfold isIdChar at h
    simp only [Bool.or_eq_true, Bool.and_eq_true, decide_eq_true_eq] at h
    omega
  unfold Char.toLower
  simp [hn]

/-- C8 (amended): the `game.ts` pipeline returns each accepted effect's
`data` payload (hence its identifier) verbatim from the input — no
normalisation; the identifier-normalisation step that does exist, in
`player.ts`, restricts identifiers to lowercase a-z, 0-9, underscore and
hyphen, and is the identity on already-normalised identifiers. -/
theorem claim_C8 :
    (∀ (xs : List JsonValue) (e : GameEffect),
        e ∈ validateAndProcessEffects (.arr xs) →
        ∃ x ∈ xs, getField x ("data") = some e.data) ∧
    (∀ s : String, (normalizeEffectId s).data.all isIdChar = true) ∧
    (∀ s : String, s.data.all isIdChar = true → normalizeEffectId s = s) := by
  refine ⟨?_, ?_, ?_⟩
  · intro xs e he
    obtain ⟨x, hxmem, hk, rfl⟩ := mem_validateAndProcessEffects he
    unfold keepEffect at hk
    simp only [Bool.and_eq_true] at hk
    obtain ⟨⟨⟨⟨⟨_, _⟩, _⟩, hd⟩, _⟩, _⟩ := hk
    obtain ⟨w, hw⟩ := truthyField_isSome hd
    refine ⟨x, hxmem, ?_⟩
    show getField x ("data") = some ((getField x ("data")).getD .null)
    rw [hw]
    rfl
  · intro s
    change ((s.data.map Char.toLower).filter isIdChar).all isIdChar = true
    rw [List.all_eq_true]
    intro c hc
    exact (List.mem_filter.mp hc).2
  · intro s hall
    rw [List.all_eq_true] at hall
    unfold normalizeEffectId
    have hmap : s.data.map Char.toLower = s.data.map id :=
      List.map_congr_left (fun c hc => toLower_of_isIdChar (hall c hc))
    rw [hmap, List.map_id, List.filter_eq_self.mpr hall]

/-- Witness for C8: the accepted item effect's payload comes verbatim
from the batch, and the normalisation step fixes the already-normalised
identifier `sword_1`. -/
theorem claim_C8_witness :
    (∃ x ∈ [itemUpperJson], getField x ("data") = some (toGameEffect itemUpperJson).data) ∧
    normalizeEffectId ("sword_1") = ("sword_1") := by
  constructor
  · refine claim_C8.1 [itemUpperJson] (toGameEffect itemUpperJson) ?_
    have hev : validateAndProcessEffects (.arr [itemUpperJson]) = [toGameEffect itemUpperJson] := rfl
    rw [hev]
    exact List.mem_singleton.mpr rfl
  · exact claim_C8.2.2 ("sword_1") (by decide)

theorem memoryWorthy_eq_c5Qualifies (e : GameEffect) :
    memoryWorthy e = c5Qualifies e := by
  unfold memoryWorthy c5Qualifies
  by_cases hq : e.type = ("quest") <;>
    by_cases hl : e.type = ("location") <;>
    by_cases hi : e.type = ("item") <;>
    by_cases ha : e.action = ("add") <;>
    simp_all

theorem summarize_isSome_of_worthy {e : GameEffect}
    (h : memoryWorthy e = true) : (summarizeEffect e).isSome = true := by
  unfold memoryWorthy at h
  unfold summarizeEffect
  by_cases hq : e.type = ("quest")
  · simp [hq]
  · by_cases hl : e.type = ("location")
    · have hni : ¬ e.type = ("item") := by rw [hl]; decide
      simp [hq, hl, hni]
    · simp only [Bool.or_eq_true, Bool.and_eq_true, decide_eq_true_eq] at h
      rcases h with (h | ⟨hi, ha⟩) | h
      · exact absurd h hq
      · simp [hi, ha]
      · exact absurd h hl

/-- C5: write-back summarises into memory records exactly the quest,
location, and item-add effects of a validated batch, and the importance
values it stores follow the fixed table quest 0.8, location 0.7,
item-add 0.6, default 0.5. -/
theorem claim_C5 :
    ∀ (effects : List GameEffect),
      writeBack effects = (effects.filter c5Qualifies).map mkMemorySummary ∧
      (∀ e : GameEffect, storedImportance e = c5ImportanceTable e) := by
  intro effects
  constructor
  · induction effects with
    | nil => rfl
    | cons e es ih =>
      unfold writeBack storeMemoriesSummaries at ih ⊢
      rw [List.filter_cons, List.filter_cons, ← memoryWorthy_eq_c5Qualifies e]
      by_cases hw : memoryWorthy e = true
      · have hs := summarize_isSome_of_worthy hw
        obtain ⟨p, hp⟩ := Option.isSome_iff_exists.mp hs
        rw [if_pos hw, if_pos hw]
        simp only [List.filterMap_cons, hp, Option.map_some, List.map_cons]
        rw [ih]
        rfl
      · rw [if_neg hw, if_neg hw]
        exact ih
  · intro e
    unfold storedImportance summarizeEffect c5ImportanceTable
    by_cases hq : e.type = ("quest") <;>
      by_cases hl : e.type = ("location") <;>
      by_cases hi : e.type = ("item") <;>
      by_cases ha : e.action = ("add") <;>
      simp_all

/-- Claim C4 is false of the code: on generator text whose junk prefix
spoils direct parsing but which contains a bracket-matched effect array,
the claimed recovery yields one valid effect while `interpretEffects`
performs no recovery and returns none. -/
theorem claim_C4_counterexample : ¬ c4Claim := by
  intro h
  have hl := congrArg List.length (h c4Input)
  exact absurd hl (by decide)

/-- C4 (amended): the `interpretEffects` extraction is total — an empty
(falsy) response yields `[]`, a parse failure is caught and yields `[]`
with no substring retry, and a successful parse is validated per
record. -/
theorem claim_C4 :
    ∀ r : String,
      (r.isEmpty = true → interpretEffectsExtract r = []) ∧
      (parseJson r = none → interpretEffectsExtract r = []) ∧
      (∀ v : JsonValue, r.isEmpty = false → parseJson r = some v →
        interpretEffectsExtract r = validateAndProcessEffects v) := by
  intro r
  refine ⟨?_, ?_, ?_⟩
  · intro h
    unfold interpretEffectsExtract
    rw [if_pos h]
  · intro h
    unfold interpretEffectsExtract
    by_cases he : r.isEmpty = true
    · rw [if_pos he]
    · rw [if_neg he, h]
  · intro v he hp
    unfold interpretEffectsExtract
    rw [if_neg (by simp [he]), hp]

/-- Witness for C4: on the junk-prefixed input the direct parse fails and
the extraction returns the empty list. -/
theorem claim_C4_witness : interpretEffectsExtract c4Input = [] :=
  (claim_C4 c4Input).2.1 rfl

/-- C10: every thrown failure inside `retrieveRelevantMemories` — the D1
query, the embedding call, or the similarity query after relational rows
were already fetched — is caught by the outer handler and yields the
empty list: not the relational fallback, and not an exception to the
caller. -/
theorem claim_C10 :
    ∀ (pid : String) (db : DbOutcome) (emb : EmbOutcome) (vec : VecOutcome)
      (limit : ℕ) (rows : List DbRow) (v : List ℚ),
      (retrieveRelevantMemories pid .err emb vec limit = []) ∧
      (retrieveRelevantMemories pid db .err vec limit = []) ∧
      (v.length = 768 →
        retrieveRelevantMemories pid (.ok rows) (.ok v) .err limit = []) := by
  intro pid db emb vec limit rows v
  refine ⟨rfl, ?_, ?_⟩
  · cases db <;> rfl
  · intro hv
    simp [retrieveRelevantMemories, retrieveInner, hv]

theorem v768_length : v768.length = 768 := by
  unfold v768
  exact List.length_replicate 768 0

/-- Witness for C10: a thrown similarity-index query error after a
successful relational fetch yields the empty list. -/
theorem claim_C10_witness :
    retrieveRelevantMemories ("p") (.ok [rowX]) (.ok v768) .err 5 = [] :=
  (claim_C10 ("p") (.ok [rowX]) .err .err 5 [rowX] v768).2.2 v768_length

/-- Claim C7 is false of the code: at `limit = 0` the result is empty,
but there is no early return — the embedding provider is still called
once the D1 query has succeeded. -/
theorem claim_C7_counterexample : ¬ c7Claim := by
  intro h
  exact absurd (h ("p") [] .malformed (.ok [])).2 (by decide)

/-- C7 (amended): a request with `limit = 0` always returns the empty
list, but the embedding provider is still invoked whenever the D1 query
succeeds. -/
theorem claim_C7 :
    ∀ (pid : String) (db : DbOutcome) (emb : EmbOutcome) (vec : VecOutcome),
      retrieveRelevantMemories pid db emb vec 0 = [] ∧
      (∀ rows : List DbRow, embedCalled (.ok rows) = true) := by
  intro pid db emb vec
  refine ⟨?_, fun _ => rfl⟩
  cases db with
  | err => rfl
  | ok rows =>
    cases emb with
    | err => rfl
    | malformed =>
      show fallbackList rows 0 = []
      simp [fallbackList]
    | ok v =>
      by_cases hv : v.length = 768
      · cases vec with
        | err => simp [retrieveRelevantMemories, retrieveInner, hv]
        | ok ms =>
          have hr : rankedMatches pid ms 0 = [] := by
            simp [rankedMatches]
          by_cases hms : ms.isEmpty = true
          · simp [retrieveRelevantMemories, retrieveInner, hv, hms, fallbackList]
          · simp [retrieveRelevantMemories, retrieveInner, hv, hms, hr, fallbackList]
      · simp [retrieveRelevantMemories, retrieveInner, hv]

/-- Claim C6 is false of the code: with a 767-dimensional query vector
the try body completes without an error, returning `Except.ok []` right
at request time. -/
theorem claim_C6_counterexample : ¬ c6Claim := by
  intro h
  obtain ⟨er, her⟩ := h ("p") [rowX] v767 (.ok []) 5 (by decide)
  have hok : retrieveInner ("p") (.ok [rowX]) (.ok v767) (.ok []) 5 = .ok [] := rfl
  rw [hok] at her
  exact Except.noConfusion her

/-- C6 (amended): a query-embedding dimension other than 768 is handled
per request, not at startup and not as a thrown error: the try body
returns `Except.ok []` and the caller-facing function returns the empty
list, bypassing the relational fallback entirely. -/
theorem claim_C6 :
    ∀ (pid : String) (rows : List DbRow) (v : List ℚ) (vec : VecOutcome)
      (limit : ℕ),
      v.length ≠ 768 →
      retrieveInner pid (.ok rows) (.ok v) vec limit = .ok [] ∧
      retrieveRelevantMemories pid (.ok rows) (.ok v) vec limit = [] := by
  intro pid rows v vec limit hv
  have h1 : retrieveInner pid (.ok rows) (.ok v) vec limit = .ok [] := by
    simp [retrieveInner, hv]
  refine ⟨h1, ?_⟩
  unfold retrieveRelevantMemories
  rw [h1]

/-- Witness for C6: the 767-dimensional vector case returns ok-empty
with relational rows available. -/
theorem claim_C6_witness :
    retrieveInner ("p") (.ok [rowX]) (.ok v767) (.ok []) 5 = .ok [] ∧
    retrieveRelevantMemories ("p") (.ok [rowX]) (.ok v767) (.ok []) 5 = [] :=
  claim_C6 ("p") [rowX] v767 (.ok []) 5 (by decide)

/-- Claim C3 is false of the code: a thrown embedding-provider error is
caught by the outer handler and yields the empty list, not the player's
relational memories (here one row is available). -/
theorem claim_C3_counterexample : ¬ c3Claim := by
  intro h
  have h1 := (h ("p") [rowX] (.ok []) 1).1
  exact absurd h1 (by decide)

/-- C3 (amended): a malformed embedding result, an empty similarity
result, and a similarity result containing no match for the player all
fall back to the relational list sorted by importance descending and
truncated to `limit`; a thrown provider error instead returns the empty
list.  The fallback list is sorted by descending importance. -/
theorem claim_C3 :
    ∀ (pid : String) (rows : List DbRow) (vec : VecOutcome) (limit : ℕ)
      (v : List ℚ) (ms : List VMatch),
      (retrieveRelevantMemories pid (.ok rows) .malformed vec limit =
        fallbackList rows limit) ∧
      (v.length = 768 →
        retrieveRelevantMemories pid (.ok rows) (.ok v) (.ok []) limit =
          fallbackList rows limit) ∧
      (v.length = 768 → (∀ m ∈ ms, passFilter pid m = false) →
        retrieveRelevantMemories pid (.ok rows) (.ok v) (.ok ms) limit =
          fallbackList rows limit) ∧
      (retrieveRelevantMemories pid (.ok rows) .err vec limit = []) ∧
      List.Sorted dbRank (fallbackList rows limit) := by
  intro pid rows vec limit v ms
  refine ⟨rfl, ?_, ?_, rfl, ?_⟩
  · intro hv
    simp [retrieveRelevantMemories, retrieveInner, hv]
  · intro hv hnone
    have hfil : ms.filter (passFilter pid) = [] := by
      rw [List.filter_eq_nil_iff]
      intro m hm
      simp [hnone m hm]
    have hr : rankedMatches pid ms limit = [] := by
      unfold rankedMatches
      rw [hfil]
      simp
    by_cases hms : ms.isEmpty = true
    · simp [retrieveRelevantMemories, retrieveInner, hv, hms]
    · simp [retrieveRelevantMemories, retrieveInner, hv, hms, hr]
  · exact List.Pairwise.sublist (List.take_sublist _ _)
      (List.sorted_insertionSort dbRank _)

/-- Witness for C3: with one relational row, a malformed embedding
result, an empty similarity result, and a similarity result whose only
match belongs to another player each return the fallback list. -/
theorem claim_C3_witness :
    (retrieveRelevantMemories ("x") (.ok [rowX]) .malformed (.ok []) 1 =
      fallbackList [rowX] 1) ∧
    (retrieveRelevantMemories ("x") (.ok [rowX]) (.ok v768) (.ok []) 1 =
      fallbackList [rowX] 1) ∧
    (retrieveRelevantMemories ("x") (.ok [rowX]) (.ok v768) (.ok [mF]) 1 =
      fallbackList [rowX] 1) := by
  have h := claim_C3 ("x") [rowX] (.ok []) 1 v768 [mF]
  refine ⟨h.1, h.2.1 v768_length, h.2.2.1 v768_length ?_⟩
  intro m hm
  rw [List.mem_singleton.mp hm]
  decide

/-- Claim C2 is false of the code: the comparator's `importance || 0.5`
also replaces a present importance of 0 by 0.5 (JavaScript falsiness),
so the code's ranking differs from the claimed one (which defaults only
when importance is absent) — exhibited on a match list containing a
zero-importance match, a negative-similarity pair, and a
zero-similarity pair. -/
theorem claim_C2_counterexample : ¬ c2Claim := by
  intro h
  have h1 := (h ("p") [] v768 cexMatches 6 v768_length
    ⟨mA, by simp [cexMatches], by decide⟩).1
  exact absurd h1 (by decide)

/-- C2 (amended): with a well-formed query vector and at least one match
of the requesting player, retrieval returns exactly the code's
filter/score/sort/truncate pipeline, whose combined score substitutes
0.5 for an importance that is absent *or zero* and 0 for an absent
similarity; the output is sorted by descending combined score, and at
equal strictly positive similarity a match with strictly greater
positive importance ranks at or above one with smaller positive
importance. -/
theorem claim_C2 :
    ∀ (pid : String) (rows : List DbRow) (v : List ℚ) (ms : List VMatch)
      (limit : ℕ) (m : VMatch),
      v.length = 768 → m ∈ ms → passFilter pid m = true →
      (retrieveRelevantMemories pid (.ok rows) (.ok v) (.ok ms) limit =
        rankedMatches pid ms limit) ∧
      List.Sorted rank (rankedMatches pid ms limit) ∧
      rankedAtOrAbovePos (rankedMatches pid ms limit) := by
  intro pid rows v ms limit m hv hm hpm
  have hsorted : List.Sorted rank (rankedMatches pid ms limit) :=
    List.Pairwise.sublist (List.take_sublist _ _)
      (List.sorted_insertionSort rank _)
  refine ⟨?_, hsorted, ?_⟩
  · have hms : ms.isEmpty = false := by
      cases ms with
      | nil => exact absurd hm (List.not_mem_nil m)
      | cons a t => rfl
    by_cases h0 : 0 < (rankedMatches pid ms limit).length
    · simp [retrieveRelevantMemories, retrieveInner, hv, hms, h0]
    · have hr0 : rankedMatches pid ms limit = [] :=
        List.length_eq_zero.mp (Nat.eq_zero_of_not_pos h0)
      have hsne : ((ms.filter (passFilter pid)).map toEntry).insertionSort rank ≠ [] := by
        intro hnil
        have hperm := List.perm_insertionSort rank
          ((ms.filter (passFilter pid)).map toEntry)
        rw [hnil] at hperm
        have hmapnil := hperm.nil_eq.symm
        rw [List.map_eq_nil_iff] at hmapnil
        have hmmem : m ∈ ms.filter (passFilter pid) :=
          List.mem_filter.mpr ⟨hm, hpm⟩
        rw [hmapnil] at hmmem
        exact absurd hmmem (List.not_mem_nil m)
      have hlim : limit = 0 := by
        unfold rankedMatches at hr0
        rcases List.take_eq_nil_iff.mp hr0 with h | h
        · exact h
        · exact absurd h hsne
      subst hlim
      simp [retrieveRelevantMemories, retrieveInner, hv, hms, h0, hr0,
        fallbackList]
  · intro i j hsc hpos qi qj hqi hqj hqj0 hlt
    by_contra hij
    push_neg at hij
    have hrel := hsorted.rel_get_of_lt (show j < i from hij)
    unfold rank combinedScore at hrel
    rw [← hsc, hqi, hqj] at hrel
    have hqine : qi ≠ 0 := ne_of_gt (lt_trans hqj0 hlt)
    have hqjne : qj ≠ 0 := ne_of_gt hqj0
    simp only [qmul_eq_mul, effImp, if_neg hqine, if_neg hqjne] at hrel
    exact absurd hrel (not_le.mpr (mul_lt_mul_of_pos_left hlt hpos))

/-- Witness for C2: a single own-player match flows through the ranked
pipeline, and the output is sorted. -/
theorem claim_C2_witness :
    (retrieveRelevantMemories ("p") (.ok []) (.ok v768) (.ok [mC]) 1 =
      rankedMatches ("p") [mC] 1) ∧
    List.Sorted rank (rankedMatches ("p") [mC] 1) := by
  have h := claim_C2 ("p") [] v768 [mC] 1 mC v768_length (by simp) (by decide)
  exact ⟨h.1, h.2.1⟩
